import Mathlib

/-!
Shallow embedding of the OPD token allocation engine
(src/src/utils/allocationEngine.ts together with the helpers it imports
from src/src/utils/helper.ts), and proofs about the claims of the
specification.

Modelling conventions:
* Ids (doctor, slot, token) and idempotency keys are natural numbers.
* Calendar dates are day indices (Nat); times of day are minutes (Nat);
  the absolute instant of a time T on a date D is D * 1440 + T, matching
  the JavaScript Date arithmetic of the source (which works in
  milliseconds; the scale factor is irrelevant to every comparison).
* The current instant (new Date() in the source) is passed explicitly
  as a parameter named now.
* The Prisma store is a record of lists; findUnique becomes List.find?,
  update by id becomes a map over the list, findMany with a where clause
  becomes List.filter and an orderBy becomes List.insertionSort.
* async/await plus thrown application errors become the Except monad;
  a thrown createAppError is an EngineError value.
-/

namespace OPD

/-- Priority enum of the Prisma schema. -/
inductive Priority where
  | EMERGENCY
  | PAID
  | FOLLOWUP
  | ONLINE
  | WALKIN
deriving DecidableEq, Repr

/-- Source enum of the Prisma schema. -/
inductive Source where
  | WALKIN
  | ONLINE
deriving DecidableEq, Repr

/-- TokenStatus enum of the Prisma schema. -/
inductive TokenStatus where
  | WAITING
  | ALLOCATED
  | COMPLETED
  | CANCELLED
  | NO_SHOW
  | EXPIRED
deriving DecidableEq, Repr

/-- Token row (src/src/types/domain.ts). -/
structure Token where
  id : Nat
  patientName : String
  source : Source
  priority : Priority
  status : TokenStatus
  slotId : Option Nat
  doctorId : Nat
  date : Nat
  idempotencyKey : Nat
  createdAt : Nat
  allocatedAt : Option Nat
  completedAt : Option Nat
  cancelledAt : Option Nat
deriving DecidableEq, Repr

/-- Slot row (src/src/types/domain.ts). -/
structure Slot where
  id : Nat
  doctorId : Nat
  date : Nat
  startTime : Nat
  endTime : Nat
  capacity : Nat
  paidCap : Option Nat
  followUpCap : Option Nat
  isActive : Bool
deriving DecidableEq, Repr

/-- Doctor row; the engine reads only id and isActive. -/
structure Doctor where
  id : Nat
  isActive : Bool
deriving DecidableEq, Repr

/-- The audit operations the engine emits. -/
inductive AuditOp where
  | CREATE_TOKEN
  | EMERGENCY_DISPLACEMENT
  | CANCEL_TOKEN
  | NO_SHOW
  | COMPLETE_TOKEN
  | EXPIRE_TOKENS
deriving DecidableEq, Repr

/-- Audit log row (payload details are opaque and omitted). -/
structure AuditEvent where
  op : AuditOp
  tokenId : Option Nat
  slotId : Option Nat
  doctorId : Option Nat
deriving DecidableEq, Repr

/-- The transactional store. nextId models the id generator of the
database: freshly inserted tokens receive id nextId. -/
structure DB where
  doctors : List Doctor
  slots : List Slot
  tokens : List Token
  audit : List AuditEvent
  nextId : Nat
deriving DecidableEq, Repr

/-- Application errors thrown with createAppError, by error code.
FUEL_EXHAUSTED is a modelling artifact for the fuel of the recursive
allocation procedure; it is unreachable from any actual entry point. -/
inductive EngineError where
  | TOKEN_NOT_FOUND
  | INVALID_STATUS
  | DOCTOR_NOT_FOUND
  | ALREADY_CANCELLED
  | CANNOT_CANCEL_COMPLETED
  | FUEL_EXHAUSTED
deriving DecidableEq, Repr

/-- helper.ts getPriorityOrder: lower number means higher priority. -/
def getPriorityOrder : Priority → Nat
  | Priority.EMERGENCY => 1
  | Priority.PAID => 2
  | Priority.FOLLOWUP => 3
  | Priority.ONLINE => 4
  | Priority.WALKIN => 5

/-- helper.ts canAllocateToSlot, with the branches in source order:
the full-slot check comes first, then the emergency branch, then the
two sub-cap checks. -/
def canAllocateToSlot (priority : Priority) (currentPaidCount currentFollowUpCount
    currentTotalCount capacity : Nat) (paidCap followUpCap : Option Nat) : Bool :=
  if currentTotalCount ≥ capacity then
    false
  else if priority = Priority.EMERGENCY then
    true
  else if priority = Priority.PAID then
    match paidCap with
    | some cap => if currentPaidCount ≥ cap then false else true
    | none => true
  else if priority = Priority.FOLLOWUP then
    match followUpCap with
    | some cap => if currentFollowUpCount ≥ cap then false else true
    | none => true
  else
    true

/-- helper.ts findLowestPriorityToken: scan for the occupant with the
numerically largest priority order; among equals keep the oldest
createdAt. Returns its id. -/
def findLowestPriorityToken (tokens : List Token) : Option Nat :=
  match tokens with
  | [] => none
  | t0 :: _ =>
    let lowest := tokens.foldl (fun best t =>
      if getPriorityOrder t.priority > getPriorityOrder best.priority then t
      else if getPriorityOrder t.priority = getPriorityOrder best.priority ∧
          t.createdAt < best.createdAt then t
      else best) t0
    some lowest.id

/-- helper.ts hasSlotEnded: the slot has ended when now is at or past
the absolute instant of endTime on the slot date. -/
def hasSlotEnded (now slotEndTime slotDate : Nat) : Bool :=
  decide (slotDate * 1440 + slotEndTime ≤ now)

/-- helper.ts shouldPrioritizeWalkIn: false for an ended slot, else true
exactly when the slot starts within one hour of now (slots already in
progress give a negative difference, hence true). -/
def shouldPrioritizeWalkIn (now slotStartTime slotEndTime slotDate : Nat) : Bool :=
  if hasSlotEnded now slotEndTime slotDate then
    false
  else
    decide (((slotDate * 1440 + slotStartTime : Nat) : Int) - (now : Int) ≤ 60)

/-- helper.ts isValidStatusTransition: the transition table of the token
state machine. -/
def isValidStatusTransition (fromStatus toStatus : TokenStatus) : Bool :=
  match fromStatus with
  | TokenStatus.WAITING =>
      toStatus = TokenStatus.ALLOCATED ∨ toStatus = TokenStatus.CANCELLED ∨
        toStatus = TokenStatus.EXPIRED
  | TokenStatus.ALLOCATED =>
      toStatus = TokenStatus.COMPLETED ∨ toStatus = TokenStatus.NO_SHOW ∨
        toStatus = TokenStatus.CANCELLED ∨ toStatus = TokenStatus.WAITING
  | TokenStatus.COMPLETED => false
  | TokenStatus.CANCELLED => false
  | TokenStatus.NO_SHOW => false
  | TokenStatus.EXPIRED => false

/-- Result of createToken and of the internal allocation procedure
(AllocationResult of domain.ts; the token and slot objects are
represented by their ids). -/
structure AllocationResult where
  success : Bool
  tokenId : Nat
  slot : Option Nat
  message : String
deriving DecidableEq, Repr

/-- Result of cancelToken and markNoShow (ReallocationResult of
domain.ts; moved tokens are represented by their ids). -/
structure ReallocationResult where
  success : Bool
  movedTokens : List Nat
  freedSlot : Option Nat
  message : String
deriving DecidableEq, Repr

/-- tx.token.update where id = tid: apply f to the row with that id. -/
def updateToken (tokens : List Token) (tid : Nat) (f : Token → Token) : List Token :=
  tokens.map (fun t => if t.id = tid then f t else t)

/-- Membership test of the slot relation restricted to ALLOCATED tokens
(the include used by allocateToken: tokens where status = ALLOCATED). -/
def isAllocIn (sid : Nat) (t : Token) : Bool :=
  t.slotId = some sid ∧ t.status = TokenStatus.ALLOCATED

/-- The currently ALLOCATED tokens of a slot. -/
def slotAllocTokens (tokens : List Token) (sid : Nat) : List Token :=
  tokens.filter (isAllocIn sid)

/-- currentTotalCount of allocateToken. -/
def slotTotalCount (tokens : List Token) (sid : Nat) : Nat :=
  (slotAllocTokens tokens sid).length

/-- paidCount of allocateToken. -/
def slotPaidCount (tokens : List Token) (sid : Nat) : Nat :=
  ((slotAllocTokens tokens sid).filter (fun t => t.priority = Priority.PAID)).length

/-- followUpCount of allocateToken. -/
def slotFollowUpCount (tokens : List Token) (sid : Nat) : Nat :=
  ((slotAllocTokens tokens sid).filter (fun t => t.priority = Priority.FOLLOWUP)).length

/-- The canAllocateToSlot call of allocateToken with the counts of the
given slot. -/
def slotAdmits (tokens : List Token) (token : Token) (slot : Slot) : Bool :=
  canAllocateToSlot token.priority (slotPaidCount tokens slot.id)
    (slotFollowUpCount tokens slot.id) (slotTotalCount tokens slot.id)
    slot.capacity slot.paidCap slot.followUpCap

/-- The field update performed when a token is allocated to a slot. -/
def allocSet (now sid : Nat) (t : Token) : Token :=
  { t with status := TokenStatus.ALLOCATED, slotId := some sid, allocatedAt := some now }

/-- The field update performed on a displacement victim. -/
def displaceSet (t : Token) : Token :=
  { t with status := TokenStatus.WAITING, slotId := none, allocatedAt := none }

/-- The field update performed by cancelToken. -/
def cancelSet (now : Nat) (t : Token) : Token :=
  { t with status := TokenStatus.CANCELLED, slotId := none, cancelledAt := some now }

/-- The field update performed by markNoShow. -/
def noShowSet (t : Token) : Token :=
  { t with status := TokenStatus.NO_SHOW, slotId := none }

/-- The field update performed by completeToken. Note that the source
does not clear slotId here. -/
def completeSet (now : Nat) (t : Token) : Token :=
  { t with status := TokenStatus.COMPLETED, completedAt := some now }

/-- The relative order used by the slot query of allocateToken
(orderBy startTime asc). -/
def slotStartLe (a b : Slot) : Prop := a.startTime ≤ b.startTime

instance : DecidableRel slotStartLe := fun a b => Nat.decLe a.startTime b.startTime

instance : IsTotal Slot slotStartLe := ⟨fun a b => Nat.le_total a.startTime b.startTime⟩

instance : IsTrans Slot slotStartLe := ⟨fun _ _ _ h1 h2 => Nat.le_trans h1 h2⟩

/-- The candidate slots of allocateToken: the active slots of the
doctor and date of the token, ordered by startTime ascending, with the
already ended ones filtered out. -/
def candidateSlots (now : Nat) (db : DB) (token : Token) : List Slot :=
  (List.insertionSort slotStartLe (db.slots.filter (fun s =>
      s.doctorId = token.doctorId ∧ s.date = token.date ∧ s.isActive = true))).filter
    (fun s => !hasSlotEnded now s.endTime s.date)

/-- The for-loop over availableSlots inside allocateToken. The alloc
argument is the recursive allocateToken reference used to re-place a
displacement victim. -/
def allocateLoop (now : Nat)
    (alloc : DB → Nat → Except EngineError (AllocationResult × DB))
    (token : Token) : DB → List Slot → Except EngineError (AllocationResult × DB)
  | db, [] =>
    Except.ok ({ success := false, tokenId := token.id, slot := none,
                 message := "All slots are full or capacity limits reached" }, db)
  | db, slot :: rest =>
    if slotAdmits db.tokens token slot then
      if slotTotalCount db.tokens slot.id < slot.capacity then
        Except.ok ({ success := true, tokenId := token.id, slot := some slot.id,
                     message := "Token allocated successfully" },
          { db with tokens := updateToken db.tokens token.id (allocSet now slot.id) })
      else if token.priority = Priority.EMERGENCY ∧
          slot.capacity ≤ slotTotalCount db.tokens slot.id then
        match findLowestPriorityToken (slotAllocTokens db.tokens slot.id) with
        | none => allocateLoop now alloc token db rest
        | some displacedTokenId =>
          let tokens2 := updateToken db.tokens displacedTokenId displaceSet
          let tokens3 := updateToken tokens2 token.id (allocSet now slot.id)
          match alloc { db with tokens := tokens3 } displacedTokenId with
          | Except.error e => Except.error e
          | Except.ok (_, db3) =>
            Except.ok ({ success := true, tokenId := token.id, slot := some slot.id,
                         message := "Emergency token allocated, displaced lower priority token" },
              { db3 with audit := db3.audit ++
                  [{ op := AuditOp.EMERGENCY_DISPLACEMENT, tokenId := some token.id,
                     slotId := some slot.id, doctorId := some token.doctorId }] })
      else
        allocateLoop now alloc token db rest
    else
      allocateLoop now alloc token db rest

/-- allocateToken of allocationEngine.ts, with a fuel bound on the
recursion depth of the displacement re-placement. -/
def allocateTokenFuel (now : Nat) : Nat → DB → Nat → Except EngineError (AllocationResult × DB)
  | 0, _, _ => Except.error EngineError.FUEL_EXHAUSTED
  | fuel + 1, db, tokenId =>
    match db.tokens.find? (fun t => t.id = tokenId) with
    | none => Except.error EngineError.TOKEN_NOT_FOUND
    | some token =>
      if token.status = TokenStatus.WAITING then
        if (candidateSlots now db token).isEmpty then
          Except.ok ({ success := false, tokenId := tokenId, slot := none,
                       message := "No available slots" }, db)
        else
          allocateLoop now (fun db2 tid2 => allocateTokenFuel now fuel db2 tid2) token db
            (candidateSlots now db token)
      else
        Except.error EngineError.INVALID_STATUS

/-- allocateToken with enough fuel for any reachable recursion. -/
def allocateToken (now : Nat) (db : DB) (tokenId : Nat) :
    Except EngineError (AllocationResult × DB) :=
  allocateTokenFuel now (db.tokens.length + 1) db tokenId

/-- Input of createToken (CreateTokenInput of domain.ts, with the date
already parsed). -/
structure CreateTokenInput where
  patientName : String
  doctorId : Nat
  date : Nat
  source : Source
  priority : Priority
  idempotencyKey : Nat
deriving DecidableEq, Repr

/-- The token row inserted by createToken: status WAITING, no slot,
createdAt now, id from the id generator. -/
def mkToken (now : Nat) (db : DB) (input : CreateTokenInput) : Token :=
  { id := db.nextId
    patientName := input.patientName
    source := input.source
    priority := input.priority
    status := TokenStatus.WAITING
    slotId := none
    doctorId := input.doctorId
    date := input.date
    idempotencyKey := input.idempotencyKey
    createdAt := now
    allocatedAt := none
    completedAt := none
    cancelledAt := none }

/-- createToken of allocationEngine.ts: idempotency gate, doctor check,
insert, allocate, audit. -/
def createToken (now : Nat) (db : DB) (input : CreateTokenInput) :
    Except EngineError (AllocationResult × DB) :=
  match db.tokens.find? (fun t => t.idempotencyKey = input.idempotencyKey) with
  | some existingToken =>
    Except.ok ({ success := true, tokenId := existingToken.id, slot := existingToken.slotId,
                 message := "Token already exists (idempotent request)" }, db)
  | none =>
    match db.doctors.find? (fun d => d.id = input.doctorId ∧ d.isActive = true) with
    | none => Except.error EngineError.DOCTOR_NOT_FOUND
    | some _ =>
      let token := mkToken now db input
      let db1 := { db with tokens := db.tokens ++ [token], nextId := db.nextId + 1 }
      match allocateToken now db1 token.id with
      | Except.error e => Except.error e
      | Except.ok (res, db2) =>
        Except.ok (res, { db2 with audit := db2.audit ++
          [{ op := AuditOp.CREATE_TOKEN, tokenId := some token.id, slotId := none,
             doctorId := some input.doctorId }] })

/-- The ordering of the waiting-token queries of cancelToken and
markNoShow: priority ascending, then createdAt ascending. -/
def tokenOrderLe (a b : Token) : Prop :=
  getPriorityOrder a.priority < getPriorityOrder b.priority ∨
    (getPriorityOrder a.priority = getPriorityOrder b.priority ∧ a.createdAt ≤ b.createdAt)

instance : DecidableRel tokenOrderLe := fun a b => by
  unfold tokenOrderLe; infer_instance

instance : IsTotal Token tokenOrderLe := by
  constructor
  intro a b
  unfold tokenOrderLe
  rcases Nat.lt_trichotomy (getPriorityOrder a.priority) (getPriorityOrder b.priority) with h | h | h
  · exact Or.inl (Or.inl h)
  · rcases Nat.le_total a.createdAt b.createdAt with h2 | h2
    · exact Or.inl (Or.inr ⟨h, h2⟩)
    · exact Or.inr (Or.inr ⟨h.symm, h2⟩)
  · exact Or.inr (Or.inl h)

instance : IsTrans Token tokenOrderLe := by
  constructor
  intro a b c hab hbc
  unfold tokenOrderLe at *
  rcases hab with h1 | ⟨h1, h1c⟩ <;> rcases hbc with h2 | ⟨h2, h2c⟩
  · exact Or.inl (Nat.lt_trans h1 h2)
  · exact Or.inl (h2 ▸ h1)
  · exact Or.inl (h1 ▸ h2)
  · exact Or.inr ⟨h1.trans h2, Nat.le_trans h1c h2c⟩

/-- The waiting-token query of the reallocation path: status WAITING for
the doctor and date, and if walkinOnly also source WALKIN. -/
def waitingFilter (doctorId date : Nat) (walkinOnly : Bool) (tokens : List Token) : List Token :=
  tokens.filter (fun t =>
    t.doctorId = doctorId ∧ t.date = date ∧ t.status = TokenStatus.WAITING ∧
      (walkinOnly = true → t.source = Source.WALKIN))

/-- The ordered waiting-token list fetched by cancelToken and markNoShow. -/
def orderWaiting (l : List Token) : List Token :=
  List.insertionSort tokenOrderLe l

/-- The backfill candidate computation shared verbatim by cancelToken
and markNoShow: an imminent slot restricts the query to walk-ins, with
a fallback to all waiting tokens when that list is empty. -/
def backfillCandidates (now doctorId date : Nat) (slot : Slot) (tokens : List Token) :
    List Token :=
  let prioritizeWalkIn := shouldPrioritizeWalkIn now slot.startTime slot.endTime slot.date
  let waitingTokens := orderWaiting (waitingFilter doctorId date prioritizeWalkIn tokens)
  if waitingTokens.isEmpty ∧ prioritizeWalkIn = true then
    orderWaiting (waitingFilter doctorId date false tokens)
  else
    waitingTokens

/-- The loop of cancelToken and markNoShow that calls allocateToken on
each waiting token and collects the successfully moved ones. -/
def reallocateLoop (now : Nat) : DB → List Token → List Nat →
    Except EngineError (List Nat × DB)
  | db, [], moved => Except.ok (moved, db)
  | db, w :: rest, moved =>
    match allocateToken now db w.id with
    | Except.error e => Except.error e
    | Except.ok (res, db2) =>
      if res.success then reallocateLoop now db2 rest (moved ++ [res.tokenId])
      else reallocateLoop now db2 rest moved

/-- cancelToken of allocationEngine.ts. -/
def cancelToken (now : Nat) (db : DB) (tokenId : Nat) :
    Except EngineError (ReallocationResult × DB) :=
  match db.tokens.find? (fun t => t.id = tokenId) with
  | none => Except.error EngineError.TOKEN_NOT_FOUND
  | some token =>
    if token.status = TokenStatus.CANCELLED then
      Except.error EngineError.ALREADY_CANCELLED
    else if token.status = TokenStatus.COMPLETED then
      Except.error EngineError.CANNOT_CANCEL_COMPLETED
    else
      let db1 := { db with tokens := updateToken db.tokens tokenId (cancelSet now) }
      match token.slotId.bind (fun sid => db.slots.find? (fun s => s.id = sid)) with
      | none =>
        Except.ok ({ success := true, movedTokens := [], freedSlot := none,
                     message := "Token cancelled" },
          { db1 with audit := db1.audit ++
              [{ op := AuditOp.CANCEL_TOKEN, tokenId := some tokenId, slotId := token.slotId,
                 doctorId := some token.doctorId }] })
      | some slot =>
        if hasSlotEnded now slot.endTime slot.date then
          Except.ok ({ success := true, movedTokens := [], freedSlot := some slot.id,
                       message := "Token cancelled (slot already ended, no reallocation)" },
            { db1 with audit := db1.audit ++
                [{ op := AuditOp.CANCEL_TOKEN, tokenId := some tokenId, slotId := token.slotId,
                   doctorId := some token.doctorId }] })
        else
          match reallocateLoop now db1
              (backfillCandidates now token.doctorId token.date slot db1.tokens) [] with
          | Except.error e => Except.error e
          | Except.ok (moved, db2) =>
            Except.ok ({ success := true, movedTokens := moved, freedSlot := some slot.id,
                         message := "Token cancelled, waiting tokens reallocated" },
              { db2 with audit := db2.audit ++
                  [{ op := AuditOp.CANCEL_TOKEN, tokenId := some tokenId, slotId := token.slotId,
                     doctorId := some token.doctorId }] })

/-- markNoShow of allocationEngine.ts. -/
def markNoShow (now : Nat) (db : DB) (tokenId : Nat) :
    Except EngineError (ReallocationResult × DB) :=
  match db.tokens.find? (fun t => t.id = tokenId) with
  | none => Except.error EngineError.TOKEN_NOT_FOUND
  | some token =>
    if token.status = TokenStatus.ALLOCATED then
      let db1 := { db with tokens := updateToken db.tokens tokenId noShowSet }
      match token.slotId.bind (fun sid => db.slots.find? (fun s => s.id = sid)) with
      | none =>
        Except.ok ({ success := true, movedTokens := [], freedSlot := none,
                     message := "Token marked as no-show" },
          { db1 with audit := db1.audit ++
              [{ op := AuditOp.NO_SHOW, tokenId := some tokenId, slotId := token.slotId,
                 doctorId := some token.doctorId }] })
      | some slot =>
        if hasSlotEnded now slot.endTime slot.date then
          Except.ok ({ success := true, movedTokens := [], freedSlot := some slot.id,
                       message := "Token marked as no-show (slot already ended, no reallocation)" },
            { db1 with audit := db1.audit ++
                [{ op := AuditOp.NO_SHOW, tokenId := some tokenId, slotId := token.slotId,
                   doctorId := some token.doctorId }] })
        else
          match reallocateLoop now db1
              (backfillCandidates now token.doctorId token.date slot db1.tokens) [] with
          | Except.error e => Except.error e
          | Except.ok (moved, db2) =>
            Except.ok ({ success := true, movedTokens := moved, freedSlot := some slot.id,
                         message := "Token marked as no-show, waiting tokens reallocated" },
              { db2 with audit := db2.audit ++
                  [{ op := AuditOp.NO_SHOW, tokenId := some tokenId, slotId := token.slotId,
                     doctorId := some token.doctorId }] })
    else
      Except.error EngineError.INVALID_STATUS

/-- completeToken of allocationEngine.ts. The update sets status and
completedAt only; slotId is left as it was. -/
def completeToken (now : Nat) (db : DB) (tokenId : Nat) : Except EngineError DB :=
  match db.tokens.find? (fun t => t.id = tokenId) with
  | none => Except.error EngineError.TOKEN_NOT_FOUND
  | some token =>
    if token.status = TokenStatus.ALLOCATED then
      Except.ok { db with
        tokens := updateToken db.tokens tokenId (completeSet now),
        audit := db.audit ++
          [{ op := AuditOp.COMPLETE_TOKEN, tokenId := some tokenId, slotId := token.slotId,
             doctorId := some token.doctorId }] }
    else
      Except.error EngineError.INVALID_STATUS

/-- The where clause of expireWaitingTokens. -/
def expirePred (doctorId date : Nat) (t : Token) : Bool :=
  t.doctorId = doctorId ∧ t.date = date ∧ t.status = TokenStatus.WAITING

/-- expireWaitingTokens of allocationEngine.ts: updateMany to EXPIRED,
returning the affected row count. -/
def expireWaitingTokens (db : DB) (doctorId date : Nat) : Nat × DB :=
  let count := (db.tokens.filter (expirePred doctorId date)).length
  (count,
    { db with
      tokens := db.tokens.map (fun t =>
        if expirePred doctorId date t then { t with status := TokenStatus.EXPIRED } else t),
      audit := db.audit ++
        [{ op := AuditOp.EXPIRE_TOKENS, tokenId := none, slotId := none,
           doctorId := some doctorId }] })

/-- The five externally visible operations of the engine. -/
inductive Op where
  | create (input : CreateTokenInput)
  | cancel (tokenId : Nat)
  | noShow (tokenId : Nat)
  | complete (tokenId : Nat)
  | expire (doctorId date : Nat)

/-- Running one committed operation, keeping only the resulting store. -/
def runOp (now : Nat) (db : DB) : Op → Except EngineError DB
  | Op.create input => (createToken now db input).map Prod.snd
  | Op.cancel tid => (cancelToken now db tid).map Prod.snd
  | Op.noShow tid => (markNoShow now db tid).map Prod.snd
  | Op.complete tid => completeToken now db tid
  | Op.expire doctorId date => Except.ok (expireWaitingTokens db doctorId date).snd

/-- Well-formedness of the store: primary keys are unique and the id
generator is ahead of every existing token id. -/
def WF (db : DB) : Prop :=
  (db.tokens.map Token.id).Nodup ∧ (db.slots.map Slot.id).Nodup ∧
    ∀ i ∈ db.tokens.map Token.id, i < db.nextId

instance : DecidablePred WF := fun db => by unfold WF; infer_instance

/-- Invariant I1 of the specification: for every slot, the number of
tokens with status ALLOCATED and slotId equal to the slot id is at most
its capacity. -/
def capacityInv (db : DB) : Prop :=
  ∀ s ∈ db.slots, slotTotalCount db.tokens s.id ≤ s.capacity

instance : DecidablePred capacityInv := fun db => by unfold capacityInv; infer_instance

/-- The slotId-status biconditional exactly as the specification states
it: slotId is set if and only if the token is ALLOCATED. -/
def slotIdStatusInv (db : DB) : Prop :=
  ∀ t ∈ db.tokens, (t.slotId ≠ none ↔ t.status = TokenStatus.ALLOCATED)

instance : DecidablePred slotIdStatusInv := fun db => by unfold slotIdStatusInv; infer_instance

/-- The slotId-status invariant the code actually maintains: completed
tokens keep the slot they were served in, every other non-ALLOCATED
status has no slot. -/
def slotLinkInv (db : DB) : Prop :=
  ∀ t ∈ db.tokens,
    (t.slotId ≠ none ↔ (t.status = TokenStatus.ALLOCATED ∨ t.status = TokenStatus.COMPLETED))

instance : DecidablePred slotLinkInv := fun db => by unfold slotLinkInv; infer_instance

/-- Boolean test for a token id. -/
def matchId (tid : Nat) (t : Token) : Bool := t.id = tid

/-- Derived closed form of the slot loop of allocateToken: allocate to
the first slot of the list that canAllocateToSlot admits; with no such
slot the token is left untouched. The theorem allocateLoop_eq_find
proves the loop equal to this form, because the displacement branch of
the source is unreachable: canAllocateToSlot never returns true for a
full slot. -/
def allocateFind (now : Nat) (token : Token) (db : DB) (slots : List Slot) :
    Except EngineError (AllocationResult × DB) :=
  match slots.find? (fun slot => slotAdmits db.tokens token slot) with
  | some slot =>
    Except.ok ({ success := true, tokenId := token.id, slot := some slot.id,
                 message := "Token allocated successfully" },
      { db with tokens := updateToken db.tokens token.id (allocSet now slot.id) })
  | none =>
    Except.ok ({ success := false, tokenId := token.id, slot := none,
                 message := "All slots are full or capacity limits reached" }, db)

/-- A WALKIN token allocated in slot 1 (scenario S1 occupant). -/
def s1walkin : Token :=
  { id := 1, patientName := "walkin patient", source := Source.WALKIN,
    priority := Priority.WALKIN, status := TokenStatus.ALLOCATED, slotId := some 1,
    doctorId := 1, date := 0, idempotencyKey := 1, createdAt := 10,
    allocatedAt := some 10, completedAt := none, cancelledAt := none }

/-- An ONLINE token allocated in slot 1 (scenario S1 occupant). -/
def s1online : Token :=
  { s1walkin with
    id := 2
    source := Source.ONLINE
    priority := Priority.ONLINE
    idempotencyKey := 2
    createdAt := 20 }

/-- A slot of capacity 2 from 09:00 to 10:00 on day 0 (scenario S1). -/
def s1slot : Slot :=
  { id := 1, doctorId := 1, date := 0, startTime := 540, endTime := 600,
    capacity := 2, paidCap := none, followUpCap := none, isActive := true }

/-- Scenario S1 store: one active doctor, one slot filled to capacity. -/
def s1db : DB :=
  { doctors := [{ id := 1, isActive := true }], slots := [s1slot],
    tokens := [s1walkin, s1online], audit := [], nextId := 3 }

/-- Scenario S1 incoming EMERGENCY token request. -/
def s1input : CreateTokenInput :=
  { patientName := "emergency patient", doctorId := 1, date := 0,
    source := Source.WALKIN, priority := Priority.EMERGENCY, idempotencyKey := 3 }

/-- Store with one NO_SHOW token (id 1) and one EXPIRED token (id 2). -/
def c4db : DB :=
  { doctors := [{ id := 1, isActive := true }], slots := [s1slot],
    tokens := [{ s1walkin with
                 status := TokenStatus.NO_SHOW
                 slotId := none },
               { s1walkin with
                 id := 2
                 status := TokenStatus.EXPIRED
                 slotId := none
                 idempotencyKey := 2 }],
    audit := [], nextId := 3 }

/-- Store with a single ALLOCATED token (id 1) in slot 1. -/
def c5db : DB :=
  { doctors := [{ id := 1, isActive := true }], slots := [s1slot],
    tokens := [s1walkin], audit := [], nextId := 2 }

/-- The store produced by completing token 1 of c5db. -/
def c5out : DB := (completeToken 700 c5db 1).toOption.getD c5db

/-- Witness store: one empty active slot and an active doctor. -/
def w1db : DB :=
  { doctors := [{ id := 1, isActive := true }], slots := [s1slot],
    tokens := [], audit := [], nextId := 1 }

/-- Witness input: a WALKIN creation request for doctor 1 on day 0. -/
def w1input : CreateTokenInput :=
  { patientName := "first patient", doctorId := 1, date := 0,
    source := Source.WALKIN, priority := Priority.WALKIN, idempotencyKey := 7 }

/-- The store produced by the witness creation. -/
def w1out : DB := (runOp 0 w1db (Op.create w1input)).toOption.getD w1db

/-- The store produced by cancelling token 1 of c5db at time 0. -/
def w5out : DB := (runOp 0 c5db (Op.cancel 1)).toOption.getD c5db

/-- A WAITING token with id 1 for the C8 witness store. -/
def c8tok : Token :=
  { s1walkin with
    status := TokenStatus.WAITING
    slotId := none
    allocatedAt := none }

/-- Witness store for C8: one WAITING token, one free slot. -/
def c8db : DB :=
  { doctors := [{ id := 1, isActive := true }], slots := [s1slot],
    tokens := [c8tok], audit := [], nextId := 2 }

/-- canAllocateToSlot only admits below-capacity slots: the full-slot
check is the first branch of the source and precedes the emergency
branch. -/
theorem canAllocateToSlot_lt {p : Priority} {pc fc tot cap : Nat}
    {pcap fcap : Option Nat}
    (h : canAllocateToSlot p pc fc tot cap pcap fcap = true) : tot < cap := by
  unfold canAllocateToSlot at h
  by_cases hge : tot ≥ cap
  · simp [hge] at h
  · omega

/-- slotAdmits only admits below-capacity slots. -/
theorem slotAdmits_lt {tokens : List Token} {token : Token} {slot : Slot}
    (h : slotAdmits tokens token slot = true) :
    slotTotalCount tokens slot.id < slot.capacity :=
  canAllocateToSlot_lt h

/-- Updating one token row does not change the list of token ids, as
long as the update keeps the id. -/
theorem updateToken_map_id (tokens : List Token) (tid : Nat) (f : Token → Token)
    (hf : ∀ t, (f t).id = t.id) :
    (updateToken tokens tid f).map Token.id = tokens.map Token.id := by
  unfold updateToken
  rw [List.map_map]
  apply List.map_congr_left
  intro t _
  by_cases h : t.id = tid <;> simp [h, hf]

theorem updateToken_length (tokens : List Token) (tid : Nat) (f : Token → Token) :
    (updateToken tokens tid f).length = tokens.length := by
  unfold updateToken; exact List.length_map _ _

/-- Counting after a one-row update is bounded by the old count plus
the number of rows carrying the updated id. -/
theorem countP_updateToken_le (tokens : List Token) (tid : Nat) (f : Token → Token)
    (p : Token → Bool) :
    (updateToken tokens tid f).countP p ≤ tokens.countP p + tokens.countP (matchId tid) := by
  induction tokens with
  | nil => simp [updateToken]
  | cons t ts ih =>
    unfold updateToken at ih ⊢
    simp only [List.map_cons, List.countP_cons]
    by_cases h : t.id = tid
    · have hm : matchId tid t = true := by simp [matchId, h]
      have hih := ih
      rw [if_pos h, hm]
      split_ifs <;> first | omega | simp_all
    · have hm : matchId tid t = false := by simp [matchId, h]
      have hih := ih
      rw [if_neg h, hm]
      split_ifs <;> omega

/-- With unique ids at most one row carries a given id. -/
theorem countP_matchId_le_one (tokens : List Token) (tid : Nat)
    (h : (tokens.map Token.id).Nodup) : tokens.countP (matchId tid) ≤ 1 := by
  induction tokens with
  | nil => simp
  | cons t ts ih =>
    simp only [List.map_cons, List.nodup_cons] at h
    by_cases ht : t.id = tid
    · have hz : ts.countP (matchId tid) = 0 := by
        rw [List.countP_eq_zero]
        intro u hu
        simp only [matchId, decide_eq_true_eq]
        intro hcontra
        exact h.1 (by rw [ht, ← hcontra]; exact List.mem_map_of_mem Token.id hu)
      have hm : matchId tid t = true := by simp [matchId, ht]
      rw [List.countP_cons, hz, hm]
      simp
    · have hm : matchId tid t = false := by simp [matchId, ht]
      rw [List.countP_cons, hm]
      simpa using ih h.2

/-- A one-row update whose image never satisfies p cannot raise the
p-count. -/
theorem countP_updateToken_le_of_false (tokens : List Token) (tid : Nat)
    (f : Token → Token) (p : Token → Bool) (hf : ∀ t, p (f t) = false) :
    (updateToken tokens tid f).countP p ≤ tokens.countP p := by
  unfold updateToken
  rw [List.countP_map]
  apply List.countP_mono_left
  intro t _ ht
  simp only [Function.comp] at ht
  by_cases h : t.id = tid
  · rw [if_pos h, hf] at ht; exact absurd ht (by simp)
  · rwa [if_neg h] at ht

/-- Unique ids make the token list injective on ids. -/
theorem token_eq_of_id_eq {tokens : List Token} {a b : Token}
    (h : (tokens.map Token.id).Nodup) (ha : a ∈ tokens) (hb : b ∈ tokens)
    (hid : a.id = b.id) : a = b :=
  List.inj_on_of_nodup_map h ha hb hid

/-- Unique ids make the slot list injective on ids. -/
theorem slot_eq_of_id_eq {slots : List Slot} {a b : Slot}
    (h : (slots.map Slot.id).Nodup) (ha : a ∈ slots) (hb : b ∈ slots)
    (hid : a.id = b.id) : a = b :=
  List.inj_on_of_nodup_map h ha hb hid

/-- What a successful find? by id yields. -/
theorem find?_id_spec {tokens : List Token} {tid : Nat} {tok : Token}
    (h : tokens.find? (fun t => t.id = tid) = some tok) :
    tok ∈ tokens ∧ tok.id = tid :=
  ⟨List.mem_of_find?_eq_some h, by simpa using List.find?_some h⟩

/-- Membership in the candidate slot list of allocateToken. -/
theorem mem_candidateSlots {now : Nat} {db : DB} {token : Token} {s : Slot} :
    s ∈ candidateSlots now db token ↔
      s ∈ db.slots ∧ s.doctorId = token.doctorId ∧ s.date = token.date ∧
        s.isActive = true ∧ hasSlotEnded now s.endTime s.date = false := by
  unfold candidateSlots
  rw [List.mem_filter, (List.perm_insertionSort slotStartLe _).mem_iff, List.mem_filter]
  simp only [decide_eq_true_eq, Bool.not_eq_true']
  tauto

/-- The candidate slot list is ordered by startTime ascending. -/
theorem pairwise_candidateSlots (now : Nat) (db : DB) (token : Token) :
    List.Pairwise slotStartLe (candidateSlots now db token) :=
  (List.sorted_insertionSort slotStartLe _).sublist (List.filter_sublist _)

/-- The slot loop of allocateToken equals its closed form: the
displacement branch is dead because slotAdmits (canAllocateToSlot)
requires the slot to be below capacity. In particular the loop never
calls the alloc continuation and never displaces a token. -/
theorem allocateLoop_eq_find (now : Nat)
    (alloc : DB → Nat → Except EngineError (AllocationResult × DB))
    (token : Token) (db : DB) (slots : List Slot) :
    allocateLoop now alloc token db slots = allocateFind now token db slots := by
  induction slots with
  | nil => rfl
  | cons slot rest ih =>
    by_cases hc : slotAdmits db.tokens token slot = true
    · have hlt := slotAdmits_lt hc
      rw [allocateLoop, allocateFind, List.find?_cons_of_pos _ hc, if_pos hc, if_pos hlt]
    · rw [allocateLoop, allocateFind, List.find?_cons_of_neg _ (by simp [hc]), if_neg (by simp [hc])]
      rw [ih, allocateFind]

/-- slotTotalCount as a countP. -/
theorem slotTotalCount_eq_countP (tokens : List Token) (sid : Nat) :
    slotTotalCount tokens sid = tokens.countP (isAllocIn sid) :=
  (List.countP_eq_length_filter _ _).symm

/-- Closed form of allocateToken: find the token, require WAITING, and
allocate to the first admitting candidate slot. -/
theorem allocateToken_eq (now : Nat) (db : DB) (tid : Nat) :
    allocateToken now db tid =
      match db.tokens.find? (fun t => t.id = tid) with
      | none => Except.error EngineError.TOKEN_NOT_FOUND
      | some token =>
        if token.status = TokenStatus.WAITING then
          if (candidateSlots now db token).isEmpty then
            Except.ok ({ success := false, tokenId := tid, slot := none,
                         message := "No available slots" }, db)
          else
            allocateFind now token db (candidateSlots now db token)
        else
          Except.error EngineError.INVALID_STATUS := by
  unfold allocateToken
  rw [allocateTokenFuel]
  cases hfind : db.tokens.find? (fun t => t.id = tid) with
  | none => rfl
  | some token =>
    dsimp only
    by_cases hw : token.status = TokenStatus.WAITING
    · simp only [if_pos hw]
      by_cases he : (candidateSlots now db token).isEmpty = true
      · simp only [if_pos he]
      · simp only [if_neg he]
        exact allocateLoop_eq_find now _ token db (candidateSlots now db token)
    · simp only [if_neg hw]

/-- A successful allocateToken changes nothing but token rows, and even
those keep their ids. -/
theorem allocateToken_ok_frame {now : Nat} {db : DB} {tid : Nat}
    {res : AllocationResult} {db2 : DB}
    (h : allocateToken now db tid = Except.ok (res, db2)) :
    db2.slots = db.slots ∧ db2.doctors = db.doctors ∧ db2.nextId = db.nextId ∧
      db2.audit = db.audit ∧ db2.tokens.map Token.id = db.tokens.map Token.id := by
  rw [allocateToken_eq] at h
  cases hfind : db.tokens.find? (fun t => t.id = tid) with
  | none => rw [hfind] at h; simp at h
  | some token =>
    rw [hfind] at h
    dsimp only at h
    by_cases hw : token.status = TokenStatus.WAITING
    · rw [if_pos hw] at h
      by_cases he : (candidateSlots now db token).isEmpty
      · rw [if_pos he] at h
        simp only [Except.ok.injEq, Prod.mk.injEq] at h
        rw [← h.2]
        exact ⟨rfl, rfl, rfl, rfl, rfl⟩
      · rw [if_neg he] at h
        unfold allocateFind at h
        cases hslot : (candidateSlots now db token).find?
            (fun slot => slotAdmits db.tokens token slot) with
        | none =>
          rw [hslot] at h
          simp only [Except.ok.injEq, Prod.mk.injEq] at h
          rw [← h.2]
          exact ⟨rfl, rfl, rfl, rfl, rfl⟩
        | some slot =>
          rw [hslot] at h
          simp only [Except.ok.injEq, Prod.mk.injEq] at h
          rw [← h.2]
          exact ⟨rfl, rfl, rfl, rfl, updateToken_map_id _ _ _ (fun t => rfl)⟩
    · rw [if_neg hw] at h; simp at h

/-- A successful allocateToken preserves well-formedness. -/
theorem allocateToken_WF {now : Nat} {db : DB} {tid : Nat}
    {res : AllocationResult} {db2 : DB} (hwf : WF db)
    (h : allocateToken now db tid = Except.ok (res, db2)) : WF db2 := by
  obtain ⟨hs, _, hn, _, hm⟩ := allocateToken_ok_frame h
  unfold WF at hwf ⊢
  rw [hm, hs, hn]
  exact hwf

/-- A successful allocateToken preserves the capacity invariant: the
only branch that adds an allocation is guarded by slotAdmits, which
requires the slot to be strictly below capacity. -/
theorem allocateToken_capacity {now : Nat} {db : DB} {tid : Nat}
    {res : AllocationResult} {db2 : DB} (hwf : WF db) (hcap : capacityInv db)
    (h : allocateToken now db tid = Except.ok (res, db2)) : capacityInv db2 := by
  rw [allocateToken_eq] at h
  cases hfind : db.tokens.find? (fun t => t.id = tid) with
  | none => rw [hfind] at h; simp at h
  | some token =>
    rw [hfind] at h
    dsimp only at h
    by_cases hw : token.status = TokenStatus.WAITING
    · rw [if_pos hw] at h
      by_cases he : (candidateSlots now db token).isEmpty
      · rw [if_pos he] at h
        simp only [Except.ok.injEq, Prod.mk.injEq] at h
        rw [← h.2]
        exact hcap
      · rw [if_neg he] at h
        unfold allocateFind at h
        cases hslot : (candidateSlots now db token).find?
            (fun slot => slotAdmits db.tokens token slot) with
        | none =>
          rw [hslot] at h
          simp only [Except.ok.injEq, Prod.mk.injEq] at h
          rw [← h.2]
          exact hcap
        | some slot =>
          rw [hslot] at h
          simp only [Except.ok.injEq, Prod.mk.injEq] at h
          obtain ⟨hres, hdb⟩ := h
          subst hdb
          have hadm : slotAdmits db.tokens token slot = true := by
            simpa using List.find?_some hslot
          have hlt : slotTotalCount db.tokens slot.id < slot.capacity := slotAdmits_lt hadm
          have hslotdb : slot ∈ db.slots :=
            (mem_candidateSlots.mp (List.mem_of_find?_eq_some hslot)).1
          intro s hs
          dsimp only at hs ⊢
          by_cases hid : s.id = slot.id
          · have hseq : s = slot := slot_eq_of_id_eq hwf.2.1 hs hslotdb hid
            rw [hseq, slotTotalCount_eq_countP]
            calc (updateToken db.tokens token.id (allocSet now slot.id)).countP (isAllocIn slot.id)
                ≤ db.tokens.countP (isAllocIn slot.id) + db.tokens.countP (matchId token.id) :=
                  countP_updateToken_le _ _ _ _
              _ ≤ db.tokens.countP (isAllocIn slot.id) + 1 := by
                  have := countP_matchId_le_one db.tokens token.id hwf.1
                  omega
              _ = slotTotalCount db.tokens slot.id + 1 := by rw [slotTotalCount_eq_countP]
              _ ≤ slot.capacity := hlt
          · have hid2 : slot.id ≠ s.id := fun hh => hid hh.symm
            rw [slotTotalCount_eq_countP]
            calc (updateToken db.tokens token.id (allocSet now slot.id)).countP (isAllocIn s.id)
                ≤ db.tokens.countP (isAllocIn s.id) := by
                  apply countP_updateToken_le_of_false
                  intro t
                  simp [isAllocIn, allocSet, hid2]
              _ = slotTotalCount db.tokens s.id := (slotTotalCount_eq_countP _ _).symm
              _ ≤ s.capacity := hcap s hs
    · rw [if_neg hw] at h; simp at h

/-- A successful allocateToken preserves the slotId-status link: the
update it performs sets both slotId and status ALLOCATED together. -/
theorem allocateToken_slotLink {now : Nat} {db : DB} {tid : Nat}
    {res : AllocationResult} {db2 : DB} (hinv : slotLinkInv db)
    (h : allocateToken now db tid = Except.ok (res, db2)) : slotLinkInv db2 := by
  rw [allocateToken_eq] at h
  cases hfind : db.tokens.find? (fun t => t.id = tid) with
  | none => rw [hfind] at h; simp at h
  | some token =>
    rw [hfind] at h
    dsimp only at h
    by_cases hw : token.status = TokenStatus.WAITING
    · rw [if_pos hw] at h
      by_cases he : (candidateSlots now db token).isEmpty
      · rw [if_pos he] at h
        simp only [Except.ok.injEq, Prod.mk.injEq] at h
        rw [← h.2]
        exact hinv
      · rw [if_neg he] at h
        unfold allocateFind at h
        cases hslot : (candidateSlots now db token).find?
            (fun slot => slotAdmits db.tokens token slot) with
        | none =>
          rw [hslot] at h
          simp only [Except.ok.injEq, Prod.mk.injEq] at h
          rw [← h.2]
          exact hinv
        | some slot =>
          rw [hslot] at h
          simp only [Except.ok.injEq, Prod.mk.injEq] at h
          intro t' ht'
          rw [← h.2] at ht'
          simp only [updateToken, List.mem_map] at ht'
          obtain ⟨t, ht, rfl⟩ := ht'
          by_cases hidt : t.id = token.id
          · rw [if_pos hidt]
            simp [allocSet]
          · rw [if_neg hidt]
            exact hinv t ht
    · rw [if_neg hw] at h; simp at h

/-- The reallocation loop preserves any property that every successful
allocateToken call preserves. -/
theorem reallocateLoop_pres (P : DB → Prop)
    (hstep : ∀ now db tid res db2, P db →
      allocateToken now db tid = Except.ok (res, db2) → P db2)
    (now : Nat) :
    ∀ (ws : List Token) (db : DB) (acc moved : List Nat) (db2 : DB),
      P db → reallocateLoop now db ws acc = Except.ok (moved, db2) → P db2 := by
  intro ws
  induction ws with
  | nil =>
    intro db acc moved db2 hP h
    unfold reallocateLoop at h
    simp only [Except.ok.injEq, Prod.mk.injEq] at h
    rw [← h.2]
    exact hP
  | cons w rest ih =>
    intro db acc moved db2 hP h
    unfold reallocateLoop at h
    cases halloc : allocateToken now db w.id with
    | error e => rw [halloc] at h; simp at h
    | ok p =>
      obtain ⟨res1, db1⟩ := p
      rw [halloc] at h
      dsimp only at h
      have hP1 : P db1 := hstep now db w.id res1 db1 hP halloc
      by_cases hs : res1.success = true
      · rw [if_pos hs] at h
        exact ih db1 _ _ _ hP1 h
      · rw [if_neg hs] at h
        exact ih db1 _ _ _ hP1 h

/-- A one-row update keeping ids preserves well-formedness. -/
theorem WF_update (db : DB) (tid : Nat) (f : Token → Token)
    (hf : ∀ t, (f t).id = t.id) (hwf : WF db) :
    WF { db with tokens := updateToken db.tokens tid f } := by
  unfold WF at hwf ⊢
  dsimp only
  rw [updateToken_map_id _ _ _ hf]
  exact hwf

/-- A one-row update whose image is never ALLOCATED preserves the
capacity invariant. -/
theorem capacityInv_update_notAlloc (db : DB) (tid : Nat) (f : Token → Token)
    (hf : ∀ t, (f t).status ≠ TokenStatus.ALLOCATED) (hcap : capacityInv db) :
    capacityInv { db with tokens := updateToken db.tokens tid f } := by
  intro s hs
  dsimp only at hs ⊢
  rw [slotTotalCount_eq_countP]
  calc (updateToken db.tokens tid f).countP (isAllocIn s.id)
      ≤ db.tokens.countP (isAllocIn s.id) := by
        apply countP_updateToken_le_of_false
        intro t
        simp [isAllocIn, hf t]
    _ = slotTotalCount db.tokens s.id := (slotTotalCount_eq_countP _ _).symm
    _ ≤ s.capacity := hcap s hs

/-- Inserting the fresh WAITING token of createToken preserves
well-formedness. -/
theorem WF_create (now : Nat) (db : DB) (input : CreateTokenInput) (hwf : WF db) :
    WF { db with tokens := db.tokens ++ [mkToken now db input], nextId := db.nextId + 1 } := by
  obtain ⟨h1, h2, h3⟩ := hwf
  refine ⟨?_, h2, ?_⟩
  · dsimp only
    rw [List.map_append, List.nodup_append]
    refine ⟨h1, List.nodup_singleton _, ?_⟩
    intro a ha hb
    simp [mkToken] at hb
    subst hb
    exact absurd (h3 _ ha) (by omega)
  · intro i hi
    dsimp only at hi ⊢
    rw [List.map_append] at hi
    rcases List.mem_append.mp hi with hmem | hmem
    · exact Nat.lt_succ_of_lt (h3 i hmem)
    · simp [mkToken] at hmem
      omega

/-- Inserting the fresh WAITING token of createToken preserves the
capacity invariant. -/
theorem capacityInv_create (now : Nat) (db : DB) (input : CreateTokenInput)
    (hcap : capacityInv db) :
    capacityInv { db with tokens := db.tokens ++ [mkToken now db input],
                          nextId := db.nextId + 1 } := by
  intro s hs
  dsimp only at hs ⊢
  rw [slotTotalCount_eq_countP, List.countP_append]
  have hz : ([mkToken now db input]).countP (isAllocIn s.id) = 0 := by
    simp [mkToken, isAllocIn]
  rw [hz, Nat.add_zero, ← slotTotalCount_eq_countP]
  exact hcap s hs

/-- The bulk expiry update preserves well-formedness. -/
theorem WF_expire (db : DB) (doctorId date : Nat) (hwf : WF db) :
    WF (expireWaitingTokens db doctorId date).2 := by
  obtain ⟨h1, h2, h3⟩ := hwf
  have hmap : (db.tokens.map (fun t =>
      if expirePred doctorId date t then { t with status := TokenStatus.EXPIRED }
      else t)).map Token.id = db.tokens.map Token.id := by
    rw [List.map_map]
    apply List.map_congr_left
    intro t _
    by_cases hp : expirePred doctorId date t = true <;> simp [hp]
  refine ⟨?_, h2, ?_⟩
  · dsimp only [expireWaitingTokens]
    rw [hmap]
    exact h1
  · intro i hi
    dsimp only [expireWaitingTokens] at hi ⊢
    rw [hmap] at hi
    exact h3 i hi

/-- The bulk expiry update preserves the capacity invariant: it touches
only WAITING tokens and only moves them to EXPIRED. -/
theorem capacityInv_expire (db : DB) (doctorId date : Nat) (hcap : capacityInv db) :
    capacityInv (expireWaitingTokens db doctorId date).2 := by
  intro s hs
  dsimp only [expireWaitingTokens] at hs ⊢
  rw [slotTotalCount_eq_countP, List.countP_map]
  have hcg : db.tokens.countP
      ((isAllocIn s.id) ∘ (fun t =>
        if expirePred doctorId date t then { t with status := TokenStatus.EXPIRED } else t)) =
      db.tokens.countP (isAllocIn s.id) := by
    apply List.countP_congr
    intro t _
    by_cases hp : expirePred doctorId date t = true
    · have hw : t.status = TokenStatus.WAITING := by
        simp [expirePred] at hp
        exact hp.2.2
      simp [Function.comp, hp, isAllocIn, hw]
    · simp [Function.comp, hp]
  rw [hcg, ← slotTotalCount_eq_countP]
  exact hcap s hs

/-- Claim C1: every committed operation preserves invariant I1, the
per-slot bound of ALLOCATED tokens by the slot capacity. -/
theorem C1_slot_capacity_invariant (now : Nat) (db db2 : DB) (op : Op)
    (hwf : WF db) (hcap : capacityInv db)
    (h : runOp now db op = Except.ok db2) : capacityInv db2 := by
  have hstep : ∀ (n : Nat) (d : DB) (t : Nat) (r : AllocationResult) (d2 : DB),
      (WF d ∧ capacityInv d) → allocateToken n d t = Except.ok (r, d2) →
        WF d2 ∧ capacityInv d2 :=
    fun n d t r d2 hP hok => ⟨allocateToken_WF hP.1 hok, allocateToken_capacity hP.1 hP.2 hok⟩
  cases op with
  | create input =>
    simp only [runOp] at h
    unfold createToken at h
    cases hfind : db.tokens.find? (fun t => t.idempotencyKey = input.idempotencyKey) with
    | some t0 =>
      rw [hfind] at h
      dsimp only at h
      simp only [Except.map, Except.ok.injEq] at h
      subst h
      exact hcap
    | none =>
      rw [hfind] at h
      dsimp only at h
      cases hdoc : db.doctors.find? (fun d => d.id = input.doctorId ∧ d.isActive = true) with
      | none => rw [hdoc] at h; simp [Except.map] at h
      | some d0 =>
        rw [hdoc] at h
        dsimp only at h
        cases halloc : allocateToken now
            { db with tokens := db.tokens ++ [mkToken now db input],
                      nextId := db.nextId + 1 } (mkToken now db input).id with
        | error e => rw [halloc] at h; simp [Except.map] at h
        | ok p =>
          obtain ⟨res1, dbA⟩ := p
          rw [halloc] at h
          dsimp only at h
          simp only [Except.map, Except.ok.injEq] at h
          subst h
          have hx := allocateToken_capacity (WF_create now db input hwf)
            (capacityInv_create now db input hcap) halloc
          exact hx
  | cancel tid =>
    simp only [runOp] at h
    unfold cancelToken at h
    cases hfind : db.tokens.find? (fun t => t.id = tid) with
    | none => rw [hfind] at h; simp [Except.map] at h
    | some token =>
      rw [hfind] at h
      dsimp only at h
      by_cases hc1 : token.status = TokenStatus.CANCELLED
      · rw [if_pos hc1] at h; simp [Except.map] at h
      · rw [if_neg hc1] at h
        by_cases hc2 : token.status = TokenStatus.COMPLETED
        · rw [if_pos hc2] at h; simp [Except.map] at h
        · rw [if_neg hc2] at h
          have hcap1 := capacityInv_update_notAlloc db tid (cancelSet now)
            (fun t => by simp [cancelSet]) hcap
          have hwf1 := WF_update db tid (cancelSet now) (fun t => rfl) hwf
          cases hbind : token.slotId.bind (fun sid => db.slots.find? (fun s => s.id = sid)) with
          | none =>
            rw [hbind] at h
            dsimp only at h
            simp only [Except.map, Except.ok.injEq] at h
            subst h
            exact hcap1
          | some slot =>
            rw [hbind] at h
            dsimp only at h
            by_cases hend : hasSlotEnded now slot.endTime slot.date = true
            · rw [if_pos hend] at h
              simp only [Except.map, Except.ok.injEq] at h
              subst h
              exact hcap1
            · rw [if_neg hend] at h
              cases hrel : reallocateLoop now
                  { db with tokens := updateToken db.tokens tid (cancelSet now) }
                  (backfillCandidates now token.doctorId token.date slot
                    (updateToken db.tokens tid (cancelSet now))) [] with
              | error e => rw [hrel] at h; simp [Except.map] at h
              | ok p =>
                obtain ⟨moved, dbR⟩ := p
                rw [hrel] at h
                dsimp only at h
                simp only [Except.map, Except.ok.injEq] at h
                subst h
                have hx := (reallocateLoop_pres (fun d => WF d ∧ capacityInv d) hstep now
                  _ _ _ _ _ ⟨hwf1, hcap1⟩ hrel).2
                exact hx
  | noShow tid =>
    simp only [runOp] at h
    unfold markNoShow at h
    cases hfind : db.tokens.find? (fun t => t.id = tid) with
    | none => rw [hfind] at h; simp [Except.map] at h
    | some token =>
      rw [hfind] at h
      dsimp only at h
      by_cases hc1 : token.status = TokenStatus.ALLOCATED
      · rw [if_pos hc1] at h
        have hcap1 := capacityInv_update_notAlloc db tid noShowSet
          (fun t => by simp [noShowSet]) hcap
        have hwf1 := WF_update db tid noShowSet (fun t => rfl) hwf
        cases hbind : token.slotId.bind (fun sid => db.slots.find? (fun s => s.id = sid)) with
        | none =>
          rw [hbind] at h
          dsimp only at h
          simp only [Except.map, Except.ok.injEq] at h
          subst h
          exact hcap1
        | some slot =>
          rw [hbind] at h
          dsimp only at h
          by_cases hend : hasSlotEnded now slot.endTime slot.date = true
          · rw [if_pos hend] at h
            simp only [Except.map, Except.ok.injEq] at h
            subst h
            exact hcap1
          · rw [if_neg hend] at h
            cases hrel : reallocateLoop now
                { db with tokens := updateToken db.tokens tid noShowSet }
                (backfillCandidates now token.doctorId token.date slot
                  (updateToken db.tokens tid noShowSet)) [] with
            | error e => rw [hrel] at h; simp [Except.map] at h
            | ok p =>
              obtain ⟨moved, dbR⟩ := p
              rw [hrel] at h
              dsimp only at h
              simp only [Except.map, Except.ok.injEq] at h
              subst h
              have hx := (reallocateLoop_pres (fun d => WF d ∧ capacityInv d) hstep now
                _ _ _ _ _ ⟨hwf1, hcap1⟩ hrel).2
              exact hx
      · rw [if_neg hc1] at h; simp [Except.map] at h
  | complete tid =>
    simp only [runOp] at h
    unfold completeToken at h
    cases hfind : db.tokens.find? (fun t => t.id = tid) with
    | none => rw [hfind] at h; simp at h
    | some token =>
      rw [hfind] at h
      dsimp only at h
      by_cases hc1 : token.status = TokenStatus.ALLOCATED
      · rw [if_pos hc1] at h
        simp only [Except.ok.injEq] at h
        subst h
        have hx := capacityInv_update_notAlloc db tid (completeSet now)
          (fun t => by simp [completeSet]) hcap
        exact hx
      · rw [if_neg hc1] at h; simp at h
  | expire doctorId date =>
    simp only [runOp, Except.ok.injEq] at h
    subst h
    exact capacityInv_expire db doctorId date hcap

/-- Witness for C1: creating a token in a well-formed store with a free
slot keeps the capacity invariant. -/
theorem C1_witness : capacityInv w1out :=
  C1_slot_capacity_invariant 0 w1db w1out (Op.create w1input)
    (by decide) (by decide) (by rfl)

/-- Claim C3, evaluated at the failing input: contrary to the claim,
canAllocateToSlot returns false for an EMERGENCY token when the slot is
full (allocatedCount at capacity), because the capacity check precedes
the emergency branch in the source. Below capacity EMERGENCY is
admitted even with exhausted sub-caps. -/
theorem C3_emergency_rejected_at_capacity :
    canAllocateToSlot Priority.EMERGENCY 0 0 2 2 none none = false ∧
    canAllocateToSlot Priority.EMERGENCY 0 0 3 2 none none = false ∧
    canAllocateToSlot Priority.EMERGENCY 3 3 1 2 (some 0) (some 0) = true := by
  decide

/-- Claim C2, evaluated on scenario S1: slot of capacity 2 holds a
WALKIN and an ONLINE token; an EMERGENCY createToken does not displace
anybody. The incoming token stays WAITING, both occupants stay
ALLOCATED, the result reports failure, and no EMERGENCY_DISPLACEMENT
audit event is emitted, contradicting the claim. -/
theorem C2_no_displacement_for_emergency :
    (createToken 0 s1db s1input).toOption.map (fun p => p.1.success) = some false ∧
    (createToken 0 s1db s1input).toOption.map
        (fun p => p.2.tokens.map (fun t => (t.id, t.status, t.slotId))) =
      some [(1, TokenStatus.ALLOCATED, some 1), (2, TokenStatus.ALLOCATED, some 1),
            (3, TokenStatus.WAITING, none)] ∧
    (createToken 0 s1db s1input).toOption.map (fun p => p.2.audit.map AuditEvent.op) =
      some [AuditOp.CREATE_TOKEN] := by
  refine ⟨rfl, rfl, rfl⟩

/-- Claim C4, evaluated at the failing inputs: the transition table of
the source declares NO_SHOW and EXPIRED terminal, yet cancelToken
accepts a NO_SHOW token (id 1) and an EXPIRED token (id 2), reports
success and rewrites their status to CANCELLED. -/
theorem C4_cancel_accepts_terminal_states :
    isValidStatusTransition TokenStatus.NO_SHOW TokenStatus.CANCELLED = false ∧
    isValidStatusTransition TokenStatus.EXPIRED TokenStatus.CANCELLED = false ∧
    (cancelToken 0 c4db 1).toOption.map (fun p => p.1.success) = some true ∧
    (cancelToken 0 c4db 1).toOption.map
        (fun p => p.2.tokens.map (fun t => (t.id, t.status))) =
      some [(1, TokenStatus.CANCELLED), (2, TokenStatus.EXPIRED)] ∧
    (cancelToken 0 c4db 2).toOption.map
        (fun p => p.2.tokens.map (fun t => (t.id, t.status))) =
      some [(1, TokenStatus.NO_SHOW), (2, TokenStatus.CANCELLED)] := by
  refine ⟨rfl, rfl, rfl, rfl, rfl⟩

/-- Counterexample to claim C5: completeToken does not clear slotId.
The invariant slotId set iff ALLOCATED holds before, the completion
succeeds, and afterwards the COMPLETED token still carries slotId 1. -/
theorem C5_counterexample :
    slotIdStatusInv c5db ∧
    completeToken 700 c5db 1 = Except.ok c5out ∧
    ¬ slotIdStatusInv c5out ∧
    c5out.tokens.map (fun t => (t.id, t.status, t.slotId)) =
      [(1, TokenStatus.COMPLETED, some 1)] := by
  refine ⟨by decide, rfl, by decide, rfl⟩

/-- Claim C10: for ONLINE and WALKIN priorities canAllocateToSlot is
exactly the strict capacity test; the sub-caps and sub-counts are never
consulted. -/
theorem C10_online_walkin_below_capacity (p : Priority)
    (hp : p = Priority.ONLINE ∨ p = Priority.WALKIN)
    (pc fc tot cap : Nat) (pcap fcap : Option Nat) :
    canAllocateToSlot p pc fc tot cap pcap fcap = true ↔ tot < cap := by
  rcases hp with rfl | rfl <;> simp [canAllocateToSlot]

/-- Witness for C10 at a concrete input with exhausted sub-caps. -/
theorem C10_witness :
    canAllocateToSlot Priority.ONLINE 5 5 2 3 (some 0) (some 0) = true ↔ 2 < 3 :=
  C10_online_walkin_below_capacity Priority.ONLINE (Or.inl rfl) 5 5 2 3 (some 0) (some 0)

/-- A one-row update that clears slotId and moves to a status that is
neither ALLOCATED nor COMPLETED preserves the slotId-status link. -/
theorem slotLinkInv_update_clear (db : DB) (tid : Nat) (f : Token → Token)
    (hslot : ∀ t, (f t).slotId = none)
    (hstat : ∀ t, ¬((f t).status = TokenStatus.ALLOCATED ∨
      (f t).status = TokenStatus.COMPLETED))
    (hinv : slotLinkInv db) :
    slotLinkInv { db with tokens := updateToken db.tokens tid f } := by
  intro t' ht'
  dsimp only at ht'
  unfold updateToken at ht'
  rw [List.mem_map] at ht'
  obtain ⟨t, ht, rfl⟩ := ht'
  by_cases hid : t.id = tid
  · rw [if_pos hid]
    exact ⟨fun hs => (hs (hslot t)).elim, fun hs => (hstat t hs).elim⟩
  · rw [if_neg hid]
    exact hinv t ht

/-- Inserting the fresh WAITING token of createToken preserves the
slotId-status link. -/
theorem slotLinkInv_create (now : Nat) (db : DB) (input : CreateTokenInput)
    (hinv : slotLinkInv db) :
    slotLinkInv { db with tokens := db.tokens ++ [mkToken now db input],
                          nextId := db.nextId + 1 } := by
  intro t' ht'
  dsimp only at ht'
  rcases List.mem_append.mp ht' with hmem | hmem
  · exact hinv t' hmem
  · have : t' = mkToken now db input := by simpa using hmem
    subst this
    simp [mkToken]

/-- The bulk expiry update preserves the slotId-status link: it only
touches WAITING tokens, whose slotId is already null. -/
theorem slotLinkInv_expire (db : DB) (doctorId date : Nat) (hinv : slotLinkInv db) :
    slotLinkInv (expireWaitingTokens db doctorId date).2 := by
  intro t' ht'
  dsimp only [expireWaitingTokens] at ht'
  rw [List.mem_map] at ht'
  obtain ⟨t, ht, rfl⟩ := ht'
  by_cases hp : expirePred doctorId date t = true
  · rw [if_pos hp]
    have hw : t.status = TokenStatus.WAITING := by
      simp [expirePred] at hp
      exact hp.2.2
    have hnone : t.slotId = none := by
      by_contra hne
      rcases (hinv t ht).mp hne with h1 | h1 <;> rw [hw] at h1 <;> cases h1
    simp [hnone]
  · rw [if_neg hp]
    exact hinv t ht

/-- Amended claim C5: after every committed operation, slotId is set if
and only if the status is ALLOCATED or COMPLETED. Completion keeps the
slot reference; cancel, no-show, displacement and expiry clear it or
never set it. -/
theorem C5_slotlink_invariant (now : Nat) (db db2 : DB) (op : Op)
    (hwf : WF db) (hinv : slotLinkInv db)
    (h : runOp now db op = Except.ok db2) : slotLinkInv db2 := by
  have hstep : ∀ (n : Nat) (d : DB) (t : Nat) (r : AllocationResult) (d2 : DB),
      (WF d ∧ slotLinkInv d) → allocateToken n d t = Except.ok (r, d2) →
        WF d2 ∧ slotLinkInv d2 :=
    fun n d t r d2 hP hok => ⟨allocateToken_WF hP.1 hok, allocateToken_slotLink hP.2 hok⟩
  cases op with
  | create input =>
    simp only [runOp] at h
    unfold createToken at h
    cases hfind : db.tokens.find? (fun t => t.idempotencyKey = input.idempotencyKey) with
    | some t0 =>
      rw [hfind] at h
      dsimp only at h
      simp only [Except.map, Except.ok.injEq] at h
      subst h
      exact hinv
    | none =>
      rw [hfind] at h
      dsimp only at h
      cases hdoc : db.doctors.find? (fun d => d.id = input.doctorId ∧ d.isActive = true) with
      | none => rw [hdoc] at h; simp [Except.map] at h
      | some d0 =>
        rw [hdoc] at h
        dsimp only at h
        cases halloc : allocateToken now
            { db with tokens := db.tokens ++ [mkToken now db input],
                      nextId := db.nextId + 1 } (mkToken now db input).id with
        | error e => rw [halloc] at h; simp [Except.map] at h
        | ok p =>
          obtain ⟨res1, dbA⟩ := p
          rw [halloc] at h
          dsimp only at h
          simp only [Except.map, Except.ok.injEq] at h
          subst h
          have hx := allocateToken_slotLink (slotLinkInv_create now db input hinv) halloc
          exact hx
  | cancel tid =>
    simp only [runOp] at h
    unfold cancelToken at h
    cases hfind : db.tokens.find? (fun t => t.id = tid) with
    | none => rw [hfind] at h; simp [Except.map] at h
    | some token =>
      rw [hfind] at h
      dsimp only at h
      by_cases hc1 : token.status = TokenStatus.CANCELLED
      · rw [if_pos hc1] at h; simp [Except.map] at h
      · rw [if_neg hc1] at h
        by_cases hc2 : token.status = TokenStatus.COMPLETED
        · rw [if_pos hc2] at h; simp [Except.map] at h
        · rw [if_neg hc2] at h
          have hinv1 := slotLinkInv_update_clear db tid (cancelSet now)
            (fun t => rfl) (fun t => by simp [cancelSet]) hinv
          have hwf1 := WF_update db tid (cancelSet now) (fun t => rfl) hwf
          cases hbind : token.slotId.bind (fun sid => db.slots.find? (fun s => s.id = sid)) with
          | none =>
            rw [hbind] at h
            dsimp only at h
            simp only [Except.map, Except.ok.injEq] at h
            subst h
            exact hinv1
          | some slot =>
            rw [hbind] at h
            dsimp only at h
            by_cases hend : hasSlotEnded now slot.endTime slot.date = true
            · rw [if_pos hend] at h
              simp only [Except.map, Except.ok.injEq] at h
              subst h
              exact hinv1
            · rw [if_neg hend] at h
              cases hrel : reallocateLoop now
                  { db with tokens := updateToken db.tokens tid (cancelSet now) }
                  (backfillCandidates now token.doctorId token.date slot
                    (updateToken db.tokens tid (cancelSet now))) [] with
              | error e => rw [hrel] at h; simp [Except.map] at h
              | ok p =>
                obtain ⟨moved, dbR⟩ := p
                rw [hrel] at h
                dsimp only at h
                simp only [Except.map, Except.ok.injEq] at h
                subst h
                have hx := (reallocateLoop_pres (fun d => WF d ∧ slotLinkInv d) hstep now
                  _ _ _ _ _ ⟨hwf1, hinv1⟩ hrel).2
                exact hx
  | noShow tid =>
    simp only [runOp] at h
    unfold markNoShow at h
    cases hfind : db.tokens.find? (fun t => t.id = tid) with
    | none => rw [hfind] at h; simp [Except.map] at h
    | some token =>
      rw [hfind] at h
      dsimp only at h
      by_cases hc1 : token.status = TokenStatus.ALLOCATED
      · rw [if_pos hc1] at h
        have hinv1 := slotLinkInv_update_clear db tid noShowSet
          (fun t => rfl) (fun t => by simp [noShowSet]) hinv
        have hwf1 := WF_update db tid noShowSet (fun t => rfl) hwf
        cases hbind : token.slotId.bind (fun sid => db.slots.find? (fun s => s.id = sid)) with
        | none =>
          rw [hbind] at h
          dsimp only at h
          simp only [Except.map, Except.ok.injEq] at h
          subst h
          exact hinv1
        | some slot =>
          rw [hbind] at h
          dsimp only at h
          by_cases hend : hasSlotEnded now slot.endTime slot.date = true
          · rw [if_pos hend] at h
            simp only [Except.map, Except.ok.injEq] at h
            subst h
            exact hinv1
          · rw [if_neg hend] at h
            cases hrel : reallocateLoop now
                { db with tokens := updateToken db.tokens tid noShowSet }
                (backfillCandidates now token.doctorId token.date slot
                  (updateToken db.tokens tid noShowSet)) [] with
            | error e => rw [hrel] at h; simp [Except.map] at h
            | ok p =>
              obtain ⟨moved, dbR⟩ := p
              rw [hrel] at h
              dsimp only at h
              simp only [Except.map, Except.ok.injEq] at h
              subst h
              have hx := (reallocateLoop_pres (fun d => WF d ∧ slotLinkInv d) hstep now
                _ _ _ _ _ ⟨hwf1, hinv1⟩ hrel).2
              exact hx
      · rw [if_neg hc1] at h; simp [Except.map] at h
  | complete tid =>
    simp only [runOp] at h
    unfold completeToken at h
    cases hfind : db.tokens.find? (fun t => t.id = tid) with
    | none => rw [hfind] at h; simp at h
    | some token =>
      rw [hfind] at h
      dsimp only at h
      by_cases hc1 : token.status = TokenStatus.ALLOCATED
      · rw [if_pos hc1] at h
        simp only [Except.ok.injEq] at h
        subst h
        intro t' ht'
        dsimp only at ht'
        unfold updateToken at ht'
        rw [List.mem_map] at ht'
        obtain ⟨t, ht, rfl⟩ := ht'
        by_cases hid : t.id = tid
        · rw [if_pos hid]
          have hteq : t = token :=
            token_eq_of_id_eq hwf.1 ht (find?_id_spec hfind).1
              (by rw [hid, (find?_id_spec hfind).2])
          constructor
          · intro _
            exact Or.inr rfl
          · intro _
            have hx := (hinv t ht).mpr (Or.inl (by rw [hteq]; exact hc1))
            simpa [completeSet] using hx
        · rw [if_neg hid]
          exact hinv t ht
      · rw [if_neg hc1] at h; simp at h
  | expire doctorId date =>
    simp only [runOp, Except.ok.injEq] at h
    subst h
    exact slotLinkInv_expire db doctorId date hinv

/-- Witness for the amended C5: cancelling the allocated token of a
store satisfying the link invariant keeps the invariant. -/
theorem C5_witness : slotLinkInv w5out :=
  C5_slotlink_invariant 0 c5db w5out (Op.cancel 1) (by decide) (by decide) (by rfl)

/-- Claim C6: when a token with the requested idempotencyKey exists,
createToken returns it with its current slot and the exact same store:
no new row, no status or slot change, no audit event, success reported,
whatever the rest of the input is. -/
theorem C6_idempotent_create (now : Nat) (db : DB) (input : CreateTokenInput) (t : Token)
    (hfind : db.tokens.find? (fun x => x.idempotencyKey = input.idempotencyKey) = some t) :
    createToken now db input =
      Except.ok ({ success := true, tokenId := t.id, slot := t.slotId,
                   message := "Token already exists (idempotent request)" }, db) := by
  unfold createToken
  rw [hfind]

/-- Witness for C6: replaying key 1 of scenario S1 with a different
patient name returns the original token and leaves the store untouched. -/
theorem C6_witness :
    createToken 99 s1db
        { s1input with idempotencyKey := 1, patientName := "different payload" } =
      Except.ok ({ success := true, tokenId := 1, slot := some 1,
                   message := "Token already exists (idempotent request)" }, s1db) :=
  C6_idempotent_create 99 s1db
    { s1input with idempotencyKey := 1, patientName := "different payload" }
    s1walkin (by rfl)

/-- Claim C9: expireWaitingTokens transitions exactly the WAITING
tokens of the given doctor and date to EXPIRED (changing nothing else
of those rows), returns their count, leaves every other token, every
slot and every doctor untouched, attempts no allocation, and appends a
single EXPIRE_TOKENS audit event. -/
theorem C9_expire_exact (db : DB) (doctorId date : Nat) :
    (expireWaitingTokens db doctorId date).1 =
      db.tokens.countP (expirePred doctorId date) ∧
    (expireWaitingTokens db doctorId date).2.slots = db.slots ∧
    (expireWaitingTokens db doctorId date).2.doctors = db.doctors ∧
    (expireWaitingTokens db doctorId date).2.nextId = db.nextId ∧
    (expireWaitingTokens db doctorId date).2.tokens.length = db.tokens.length ∧
    (∀ (i : Nat) (t : Token), db.tokens[i]? = some t →
      (expirePred doctorId date t = true →
        (expireWaitingTokens db doctorId date).2.tokens[i]? =
          some { t with status := TokenStatus.EXPIRED }) ∧
      (expirePred doctorId date t = false →
        (expireWaitingTokens db doctorId date).2.tokens[i]? = some t)) ∧
    (expireWaitingTokens db doctorId date).2.audit =
      db.audit ++ [{ op := AuditOp.EXPIRE_TOKENS, tokenId := none, slotId := none,
                     doctorId := some doctorId }] := by
  refine ⟨?_, rfl, rfl, rfl, ?_, ?_, rfl⟩
  · exact (List.countP_eq_length_filter _ _).symm
  · dsimp only [expireWaitingTokens]
    exact List.length_map _ _
  · intro i t hit
    constructor <;> intro hp <;> dsimp only [expireWaitingTokens] <;>
      rw [List.getElem?_map, hit] <;> simp [hp]

/-- Witness for C9 on scenario S1 extended with one WAITING token. -/
theorem C9_witness :
    (expireWaitingTokens s1db 1 0).1 = s1db.tokens.countP (expirePred 1 0) ∧
    (expireWaitingTokens s1db 1 0).2.slots = s1db.slots ∧
    (expireWaitingTokens s1db 1 0).2.doctors = s1db.doctors ∧
    (expireWaitingTokens s1db 1 0).2.nextId = s1db.nextId ∧
    (expireWaitingTokens s1db 1 0).2.tokens.length = s1db.tokens.length ∧
    (∀ (i : Nat) (t : Token), s1db.tokens[i]? = some t →
      (expirePred 1 0 t = true →
        (expireWaitingTokens s1db 1 0).2.tokens[i]? =
          some { t with status := TokenStatus.EXPIRED }) ∧
      (expirePred 1 0 t = false →
        (expireWaitingTokens s1db 1 0).2.tokens[i]? = some t)) ∧
    (expireWaitingTokens s1db 1 0).2.audit =
      s1db.audit ++ [{ op := AuditOp.EXPIRE_TOKENS, tokenId := none, slotId := none,
                       doctorId := some 1 }] :=
  C9_expire_exact s1db 1 0

/-- Claim C8: a successful allocateToken call on a WAITING token
considers exactly the active, not yet ended slots of the doctor and
date of the token, sorted by startTime, and allocates to the first one
that canAllocateToSlot admits; if none admits, the store is unchanged.
The allocated slot, being a candidate, has not ended (invariant I4). -/
theorem C8_allocate_first_admissible (now : Nat) (db : DB) (tid : Nat) (token : Token)
    (hfind : db.tokens.find? (fun t => t.id = tid) = some token)
    (hw : token.status = TokenStatus.WAITING) :
    ∃ res db2, allocateToken now db tid = Except.ok (res, db2) ∧
      (∀ s, s ∈ candidateSlots now db token ↔
        (s ∈ db.slots ∧ s.doctorId = token.doctorId ∧ s.date = token.date ∧
          s.isActive = true ∧ hasSlotEnded now s.endTime s.date = false)) ∧
      List.Pairwise slotStartLe (candidateSlots now db token) ∧
      (match (candidateSlots now db token).find? (fun s => slotAdmits db.tokens token s) with
       | some slot => res.success = true ∧ res.slot = some slot.id ∧
           hasSlotEnded now slot.endTime slot.date = false ∧
           db2.tokens = updateToken db.tokens token.id (allocSet now slot.id)
       | none => res.success = false ∧ res.slot = none ∧ db2 = db) := by
  have hmem : ∀ s, s ∈ candidateSlots now db token ↔
      (s ∈ db.slots ∧ s.doctorId = token.doctorId ∧ s.date = token.date ∧
        s.isActive = true ∧ hasSlotEnded now s.endTime s.date = false) :=
    fun s => mem_candidateSlots
  have hpw := pairwise_candidateSlots now db token
  have heq := allocateToken_eq now db tid
  rw [hfind] at heq
  dsimp only at heq
  rw [if_pos hw] at heq
  by_cases he : (candidateSlots now db token).isEmpty = true
  · rw [if_pos he] at heq
    refine ⟨_, db, heq, hmem, hpw, ?_⟩
    have hnil : candidateSlots now db token = [] := List.isEmpty_iff.mp he
    rw [hnil]
    exact ⟨rfl, rfl, rfl⟩
  · rw [if_neg he] at heq
    unfold allocateFind at heq
    cases hslot : (candidateSlots now db token).find?
        (fun s => slotAdmits db.tokens token s) with
    | some slot =>
      rw [hslot] at heq
      refine ⟨_, _, heq, hmem, hpw, ?_⟩
      have hs := mem_candidateSlots.mp (List.mem_of_find?_eq_some hslot)
      exact ⟨rfl, rfl, hs.2.2.2.2, rfl⟩
    | none =>
      rw [hslot] at heq
      refine ⟨_, db, heq, hmem, hpw, ?_⟩
      exact ⟨rfl, rfl, rfl⟩

/-- Witness for C8: allocating the WAITING token of the witness store
seats it in the single candidate slot. -/
theorem C8_witness :
    ∃ res db2, allocateToken 0 c8db 1 = Except.ok (res, db2) ∧
      (∀ s, s ∈ candidateSlots 0 c8db c8tok ↔
        (s ∈ c8db.slots ∧ s.doctorId = c8tok.doctorId ∧ s.date = c8tok.date ∧
          s.isActive = true ∧ hasSlotEnded 0 s.endTime s.date = false)) ∧
      List.Pairwise slotStartLe (candidateSlots 0 c8db c8tok) ∧
      (match (candidateSlots 0 c8db c8tok).find? (fun s => slotAdmits c8db.tokens c8tok s) with
       | some slot => res.success = true ∧ res.slot = some slot.id ∧
           hasSlotEnded 0 slot.endTime slot.date = false ∧
           db2.tokens = updateToken c8db.tokens c8tok.id (allocSet 0 slot.id)
       | none => res.success = false ∧ res.slot = none ∧ db2 = c8db) :=
  C8_allocate_first_admissible 0 c8db 1 c8tok (by rfl) (by rfl)

/-- Claim C7: the backfill candidate list used by cancelToken and
markNoShow is ordered by priority then createdAt; when the freed slot
is imminent it is a permutation of the WAITING walk-in tokens of the
doctor and date, falling back to all their WAITING tokens when there is
no waiting walk-in; when the slot is not imminent it is a permutation
of all WAITING tokens of the doctor and date. -/
theorem C7_backfill_candidates (now doctorId date : Nat) (slot : Slot)
    (tokens : List Token) :
    List.Pairwise tokenOrderLe (backfillCandidates now doctorId date slot tokens) ∧
    (∀ t, t ∈ waitingFilter doctorId date true tokens ↔
      (t ∈ tokens ∧ t.doctorId = doctorId ∧ t.date = date ∧
        t.status = TokenStatus.WAITING ∧ t.source = Source.WALKIN)) ∧
    (∀ t, t ∈ waitingFilter doctorId date false tokens ↔
      (t ∈ tokens ∧ t.doctorId = doctorId ∧ t.date = date ∧
        t.status = TokenStatus.WAITING)) ∧
    (shouldPrioritizeWalkIn now slot.startTime slot.endTime slot.date = true →
      (waitingFilter doctorId date true tokens ≠ [] →
        (backfillCandidates now doctorId date slot tokens).Perm
          (waitingFilter doctorId date true tokens)) ∧
      (waitingFilter doctorId date true tokens = [] →
        (backfillCandidates now doctorId date slot tokens).Perm
          (waitingFilter doctorId date false tokens))) ∧
    (shouldPrioritizeWalkIn now slot.startTime slot.endTime slot.date = false →
      (backfillCandidates now doctorId date slot tokens).Perm
        (waitingFilter doctorId date false tokens)) := by
  refine ⟨?_, ?_, ?_, ?_, ?_⟩
  · unfold backfillCandidates
    dsimp only
    split
    · exact List.sorted_insertionSort tokenOrderLe _
    · exact List.sorted_insertionSort tokenOrderLe _
  · intro t
    unfold waitingFilter
    rw [List.mem_filter]
    simp [and_assoc]
  · intro t
    unfold waitingFilter
    rw [List.mem_filter]
    simp [and_assoc]
  · intro himm
    constructor
    · intro hne
      unfold backfillCandidates
      dsimp only
      rw [himm]
      have hemp : (orderWaiting (waitingFilter doctorId date true tokens)).isEmpty = false := by
        rw [Bool.eq_false_iff]
        intro habs
        have hnil2 : orderWaiting (waitingFilter doctorId date true tokens) = [] :=
          List.isEmpty_iff.mp habs
        have hlen := (List.perm_insertionSort tokenOrderLe
          (waitingFilter doctorId date true tokens)).length_eq
        unfold orderWaiting at hnil2
        rw [hnil2] at hlen
        simp only [List.length_nil] at hlen
        exact hne (List.eq_nil_of_length_eq_zero (by omega))
      rw [if_neg (by simp [hemp])]
      exact List.perm_insertionSort tokenOrderLe _
    · intro hnil
      unfold backfillCandidates
      dsimp only
      rw [himm, hnil]
      rw [if_pos ⟨rfl, rfl⟩]
      exact List.perm_insertionSort tokenOrderLe _
  · intro himm
    unfold backfillCandidates
    dsimp only
    rw [himm]
    rw [if_neg (by simp)]
    exact List.perm_insertionSort tokenOrderLe _

/-- Witness for C7 at the imminent instant of scenario S3. -/
theorem C7_witness :
    List.Pairwise tokenOrderLe (backfillCandidates 510 1 0 s1slot s1db.tokens) :=
  (C7_backfill_candidates 510 1 0 s1slot s1db.tokens).1

end OPD
